import Mathlib

/-!
# Verification of the coral reef analysis pipeline

Shallow embedding of the analysis code of this repository:
* `detect_bleaching` and `analyze_morphology` from `health_analyzer.py`
  (class `AdvancedCoralHealthAnalyzer`);
* `identify_coral` and the species table from `coral_database_advanced.py`
  (class `AdvancedCoralDatabase`).

Conventions of the embedding:
* 8-bit pixel channels are integers; the Python float arithmetic is modelled
  exactly over `ℚ` (all the quantities compared against thresholds in the
  source are far from any rounding boundary at the inputs we reason about).
* `cv2.imread` failure is modelled by `Option`: `none` is an unreadable image.
* External library stages that are not part of this repository's code
  (`cv2.cvtColor`, `sklearn.cluster.KMeans`, `cv2.Canny`/`cv2.findContours`)
  are modelled from their documented behaviour; each such definition carries a
  doc comment saying so.
-/

/-- One image pixel as loaded by `cv2.imread`: three 8-bit channels in
BGR order.  Channels are embedded as integers. -/
structure Pixel where
  b : ℤ
  g : ℤ
  r : ℤ
deriving DecidableEq

/-- An RGB colour triple (the row layout of `img_rgb.reshape(-1, 3)` after
`cv2.cvtColor(img, cv2.COLOR_BGR2RGB)`, and the layout of the k-means
cluster centres after `astype(int)`). -/
structure RGB where
  r : ℤ
  g : ℤ
  b : ℤ
deriving DecidableEq

/-- `cv2.COLOR_BGR2RGB`: channel reorder. -/
def Pixel.toRGB (p : Pixel) : RGB := ⟨p.r, p.g, p.b⟩

/-- A valid 8-bit pixel: every channel lies in `[0, 255]`.  Every pixel of a
decoded image satisfies this (`uint8` data). -/
def validPixel (p : Pixel) : Prop :=
  0 ≤ p.b ∧ p.b ≤ 255 ∧ 0 ≤ p.g ∧ p.g ≤ 255 ∧ 0 ≤ p.r ∧ p.r ≤ 255

instance (p : Pixel) : Decidable (validPixel p) := by
  unfold validPixel; infer_instance

/-- Modelled from OpenCV's documented 8-bit `cv2.COLOR_BGR2HSV` conversion
(external library, not part of this repository): `V = max(B,G,R)`. -/
def hsvValOf (p : Pixel) : ℤ := max p.b (max p.g p.r)

/-- `min(B,G,R)`, used by the OpenCV saturation formula. -/
def hsvMinOf (p : Pixel) : ℤ := min p.b (min p.g p.r)

/-- Modelled from OpenCV's documented 8-bit `cv2.COLOR_BGR2HSV` conversion:
`S = 255·(V − min)/V` (0 when `V = 0`).  OpenCV rounds this to an integer;
we keep the exact rational, which agrees with OpenCV at every comparison made
by the source (the thresholds are never hit within one unit at the inputs of
interest). -/
def hsvSatOf (p : Pixel) : ℚ :=
  if hsvValOf p = 0 then 0
  else 255 * (((hsvValOf p : ℚ) - (hsvMinOf p : ℚ)) / (hsvValOf p : ℚ))

/-- The white mask of `detect_bleaching`:
`cv2.inRange(hsv, [0,0,180], [180,30,255])` — saturation in `[0,30]` and
value in `[180,255]`.  The hue test `0 ≤ H ≤ 180` of `inRange` is omitted
because OpenCV hue always lies in `[0,179]`, so that test passes for every
pixel. -/
def isWhitePixel (p : Pixel) : Bool :=
  decide (0 ≤ hsvSatOf p) && decide (hsvSatOf p ≤ 30) &&
  decide (180 ≤ hsvValOf p) && decide (hsvValOf p ≤ 255)

/-- `white_percentage` of `detect_bleaching`: white pixels as a fraction of
all pixels (`np.sum(white_mask > 0) / (h * w)`). -/
def white_percentage (img : List Pixel) : ℚ :=
  ((img.countP isWhitePixel : ℕ) : ℚ) / (img.length : ℚ)

/-- Python's `colorsys.rgb_to_hsv` (standard library, embedded from its
source), on channel values already divided by 255.  Returns `(h, s, v)`.
Python's `% 1.0` on the hue is `Int.fract`. -/
def rgb_to_hsv (r g b : ℚ) : ℚ × ℚ × ℚ :=
  let maxc := max r (max g b)
  let minc := min r (min g b)
  if minc = maxc then (0, 0, maxc)
  else
    let s := (maxc - minc) / maxc
    let rc := (maxc - r) / (maxc - minc)
    let gc := (maxc - g) / (maxc - minc)
    let bc := (maxc - b) / (maxc - minc)
    let h0 := if r = maxc then bc - gc
              else if g = maxc then 2 + rc - bc
              else 4 + gc - rc
    (Int.fract (h0 / 6), s, maxc)

/-- The saturation a dominant colour contributes to `color_diversity`
(`colorsys.rgb_to_hsv(r/255, g/255, b/255)` and take `s`). -/
def colorSat (c : RGB) : ℚ :=
  (rgb_to_hsv ((c.r : ℚ) / 255) ((c.g : ℚ) / 255) ((c.b : ℚ) / 255)).2.1

/-- `color_diversity` of `detect_bleaching`: mean saturation of the dominant
colours. -/
def color_diversity (colors : List RGB) : ℚ :=
  ((colors.map colorSat).sum) / (colors.length : ℚ)

/-- The healthy-colour test of `detect_bleaching`:
`(0.05 ≤ h ≤ 0.2 and 0.3 ≤ s ≤ 0.8 and 0.3 ≤ v ≤ 0.7) or
 (0.2 ≤ h ≤ 0.4 and 0.3 ≤ s ≤ 0.8 and 0.3 ≤ v ≤ 0.7)`. -/
def isHealthyColor (c : RGB) : Bool :=
  let hsv := rgb_to_hsv ((c.r : ℚ) / 255) ((c.g : ℚ) / 255) ((c.b : ℚ) / 255)
  decide ((5 / 100 ≤ hsv.1 ∧ hsv.1 ≤ 2 / 10 ∧ 3 / 10 ≤ hsv.2.1 ∧
            hsv.2.1 ≤ 8 / 10 ∧ 3 / 10 ≤ hsv.2.2 ∧ hsv.2.2 ≤ 7 / 10) ∨
          (2 / 10 ≤ hsv.1 ∧ hsv.1 ≤ 4 / 10 ∧ 3 / 10 ≤ hsv.2.1 ∧
            hsv.2.1 ≤ 8 / 10 ∧ 3 / 10 ≤ hsv.2.2 ∧ hsv.2.2 ≤ 7 / 10))

/-- `healthy_color_ratio` of `detect_bleaching`:
`healthy_colors / len(colors) if len(colors) > 0 else 0`. -/
def healthyColorRatioOf (colors : List RGB) : ℚ :=
  if 0 < colors.length then
    ((colors.countP isHealthyColor : ℕ) : ℚ) / (colors.length : ℚ)
  else 0

/-- `bleaching_score` of `detect_bleaching`:
`white_percentage * 0.6 + (1 - color_diversity) * 0.2 +
 (1 - healthy_color_ratio) * 0.2`. -/
def bleaching_score (img : List Pixel) (colors : List RGB) : ℚ :=
  white_percentage img * (6 / 10) + (1 - color_diversity colors) * (2 / 10) +
    (1 - healthyColorRatioOf colors) * (2 / 10)

/-- The status / confidence chain of `detect_bleaching` (lines 88–102 of
`health_analyzer.py`), before the final clamp.  The strings are exactly the
source's strings. -/
def statusAndConfidence (pct : ℚ) : String × ℚ :=
  if 40 < pct then ("🚨 SEVERELY BLEACHED", min pct 95)
  else if 20 < pct then ("⚠️ MODERATELY BLEACHED", 75 + (pct - 20))
  else if 10 < pct then ("😟 MILD STRESS", 65 + (pct - 10))
  else if 5 < pct then ("👀 WATCH", 60)
  else ("✅ HEALTHY", 95 - pct)

/-- The sample handed to k-means:
`pixels = img_rgb.reshape(-1, 3)`, then `pixels[:5000]`. -/
def kmeansSample (img : List Pixel) : List RGB :=
  (img.map Pixel.toRGB).take 5000

/-- Modelled from the spec (§4.2): the `sklearn.cluster.KMeans` clustering is
an external library, not code of this repository.  We capture only the
properties of its output used by the claims: `fit` on the sample followed by
`cluster_centers_.astype(int)` yields five centres, and every centre's
channel lies between the minimum and the maximum of that channel over the
sample (cluster centres are means of sample points, and `astype(int)`
truncation keeps an integer bound).  In particular, on a uniform sample all
centres equal the sample's single colour, which is the spec's determinism
requirement ("k-means … seeded identically … producing identical dominant
colors"). -/
def KMeansCenters (sample : List RGB) (colors : List RGB) : Prop :=
  colors.length = 5 ∧
    ∀ c ∈ colors,
      ((∃ p ∈ sample, p.r ≤ c.r) ∧ (∃ p ∈ sample, c.r ≤ p.r)) ∧
      ((∃ p ∈ sample, p.g ≤ c.g) ∧ (∃ p ∈ sample, c.g ≤ p.g)) ∧
      ((∃ p ∈ sample, p.b ≤ c.b) ∧ (∃ p ∈ sample, c.b ≤ p.b))

instance (sample colors : List RGB) : Decidable (KMeansCenters sample colors) := by
  unfold KMeansCenters; infer_instance

/-- `AdvancedCoralHealthAnalyzer.detect_bleaching` of `health_analyzer.py`.
`imgOpt = none` models `cv2.imread` returning `None` (unreadable image);
`colors` is the output of the external k-means stage on `kmeansSample img`
(see `KMeansCenters`).  Returns
`(bleaching_percentage, health_status, confidence)`. -/
def detect_bleaching (imgOpt : Option (List Pixel)) (colors : List RGB) :
    ℚ × String × ℚ :=
  match imgOpt with
  | none => (0, "Unknown", 0)
  | some img =>
      let pct := bleaching_score img colors * 100
      let sc := statusAndConfidence pct
      (pct, sc.1, max 30 (min 95 sc.2))

/-! ## Species database (`coral_database_advanced.py`) -/

/-- One row of the `coral_species` table. -/
structure SpeciesRecord where
  id : ℤ
  common_name : String
  scientific_name : String
  family : String
  genus : String
  morphology : String
  bleaching_resistance : String
  conservation_status : String
  color_patterns : String
  typical_size_cm : ℤ
  image_features : String
deriving DecidableEq

/-- Row 1 of `populate_coral_species`. -/
def staghorn : SpeciesRecord :=
  ⟨1, "Staghorn Coral", "Acropora cervicornis", "Acroporidae", "Acropora",
   "Branching", "Low", "Critically Endangered", "Brown/Yellow", 300,
   "Thick branches, antler-like"⟩

/-- Row 2 of `populate_coral_species`. -/
def elkhorn : SpeciesRecord :=
  ⟨2, "Elkhorn Coral", "Acropora palmata", "Acroporidae", "Acropora",
   "Branching", "Low", "Critically Endangered", "Golden brown", 350,
   "Flat branches, elk antler shape"⟩

/-- Row 3 of `populate_coral_species`. -/
def tableCoral : SpeciesRecord :=
  ⟨3, "Table Coral", "Acropora hyacinthus", "Acroporidae", "Acropora",
   "Plate/Table", "Medium", "Vulnerable", "Blue/Purple", 200,
   "Horizontal plates, tiered"⟩

/-- Row 4 of `populate_coral_species`. -/
def greatStar : SpeciesRecord :=
  ⟨4, "Great Star Coral", "Montastraea cavernosa", "Merulinidae", "Montastraea",
   "Boulder", "Medium", "Vulnerable", "Green/Brown", 150,
   "Massive, star-shaped polyps"⟩

/-- Row 5 of `populate_coral_species`. -/
def mustardHill : SpeciesRecord :=
  ⟨5, "Mustard Hill Coral", "Porites astreoides", "Poritidae", "Porites",
   "Boulder", "High", "Least Concern", "Yellow/Green", 100,
   "Small mounds, mustard color"⟩

/-- Row 6 of `populate_coral_species`. -/
def brainCoral : SpeciesRecord :=
  ⟨6, "Brain Coral", "Diploria labyrinthiformis", "Merulinidae", "Diploria",
   "Boulder", "High", "Near Threatened", "Brown/Green", 180,
   "Grooved like brain"⟩

/-- Row 7 of `populate_coral_species`. -/
def leafCoral : SpeciesRecord :=
  ⟨7, "Leaf Coral", "Pavona decussata", "Agariciidae", "Pavona",
   "Plate", "Medium", "Least Concern", "Cream/Brown", 120,
   "Leaf-like plates"⟩

/-- Row 8 of `populate_coral_species`. -/
def flowerCoral : SpeciesRecord :=
  ⟨8, "Flower Coral", "Mussa angulosa", "Faviidae", "Mussa",
   "Boulder", "Low", "Vulnerable", "Red/Orange", 80,
   "Large fleshy polyps"⟩

/-- Row 9 of `populate_coral_species`. -/
def softCoral : SpeciesRecord :=
  ⟨9, "Soft Coral", "Sinularia flexibilis", "Alcyoniidae", "Sinularia",
   "Soft", "Medium", "Data Deficient", "Various", 150,
   "Flexible, tree-like"⟩

/-- The `coral_species` table in insertion (rowid) order, as populated once by
`populate_coral_species`.  `SELECT … LIMIT 1` without `ORDER BY` on this
freshly inserted table returns rows in this rowid order. -/
def corals : List SpeciesRecord :=
  [staghorn, elkhorn, tableCoral, greatStar, mustardHill, brainCoral,
   leafCoral, flowerCoral, softCoral]

/-- `needle` is a prefix of `hay` (character lists). -/
def startsWithChars : List Char → List Char → Bool
  | [], _ => true
  | _ :: _, [] => false
  | a :: as, b :: bs => a == b && startsWithChars as bs

/-- `needle` occurs as a contiguous substring of the second list — Python's
`needle in hay` on strings. -/
def hasSubChars (needle : List Char) : List Char → Bool
  | [] => startsWithChars needle []
  | b :: bs => startsWithChars needle (b :: bs) || hasSubChars needle bs

/-- Python's `needle in hay` substring test. -/
def strContains (hay needle : String) : Bool :=
  hasSubChars needle.toList hay.toList

/-- Python's `str.lower()`, character by character (the keywords matched by
`identify_coral` are ASCII, where this agrees with Python's Unicode
lowering). -/
def strLower (s : String) : String :=
  ⟨s.toList.map Char.toLower⟩

/-- `AdvancedCoralDatabase.identify_coral` of `coral_database_advanced.py`.
`image_features.lower()` is `strLower`; each `SELECT * FROM coral_species WHERE morphology=… LIMIT 1`
is `List.find?` on the table in rowid order, and the final
`SELECT * FROM coral_species LIMIT 1` is `List.head?`. -/
def identify_coral (image_features : String) : Option SpeciesRecord × ℚ :=
  match
    (if strContains (strLower image_features) "branch" then
      corals.find? (fun c => c.morphology == "Branching")
    else if strContains (strLower image_features) "boulder" ||
            strContains (strLower image_features) "massive" then
      corals.find? (fun c => c.morphology == "Boulder")
    else if strContains (strLower image_features) "plate" ||
            strContains (strLower image_features) "table" then
      corals.find? (fun c => c.morphology == "Plate/Table")
    else corals.head?)
  with
  | some info => (some info, 171 / 2)
  | none => (none, 0)

/-! ## Morphology (`analyze_morphology` of `health_analyzer.py`)

`cv2.imread(path, 0)`, `cv2.Canny` and `cv2.findContours` are external
OpenCV stages: the embedding's input is their output, the list of external
contours (each a closed polyline of integer pixel coordinates), with `none`
for an unreadable image.  `cv2.contourArea` and `cv2.arcLength(·, True)` are
embedded by their documented formulas: the absolute Green/shoelace area and
the closed polygonal perimeter. -/

/-- The list of consecutive (cyclic) vertex pairs of a closed polyline. -/
def cyclicPairs (c : List (ℤ × ℤ)) : List ((ℤ × ℤ) × (ℤ × ℤ)) :=
  match c with
  | [] => []
  | p :: rest => (p :: rest).zip (rest ++ [p])

/-- `cv2.contourArea`: `|Σ (xᵢ·yᵢ₊₁ − xᵢ₊₁·yᵢ)| / 2` over the closed
polyline. -/
def contourArea (c : List (ℤ × ℤ)) : ℚ :=
  ((((cyclicPairs c).map (fun (q : (ℤ × ℤ) × (ℤ × ℤ)) =>
      q.1.1 * q.2.2 - q.2.1 * q.1.2)).sum.natAbs : ℕ) : ℚ) / 2

/-- `cv2.arcLength(c, True)`: the sum of the Euclidean lengths of the closed
polyline's segments. -/
noncomputable def arcLength (c : List (ℤ × ℤ)) : ℝ :=
  ((cyclicPairs c).map (fun (q : (ℤ × ℤ) × (ℤ × ℤ)) =>
    Real.sqrt (((q.2.1 - q.1.1 : ℤ) : ℝ) ^ 2 + ((q.2.2 - q.1.2 : ℤ) : ℝ) ^ 2))).sum

/-- The width of `cv2.boundingRect`: `max x − min x + 1` (0 for an empty
point list). -/
def rectW (c : List (ℤ × ℤ)) : ℤ :=
  match c.map Prod.fst with
  | [] => 0
  | x :: xs => xs.foldl max x - xs.foldl min x + 1

/-- The height of `cv2.boundingRect`: `max y − min y + 1` (0 for an empty
point list). -/
def rectH (c : List (ℤ × ℤ)) : ℤ :=
  match c.map Prod.snd with
  | [] => 0
  | y :: ys => ys.foldl max y - ys.foldl min y + 1

/-- `aspect_ratio = w / h if h > 0 else 0` of `analyze_morphology`. -/
def aspectRatioOf (c : List (ℤ × ℤ)) : ℚ :=
  if 0 < rectH c then (rectW c : ℚ) / (rectH c : ℚ) else 0

/-- The circularity of `analyze_morphology`:
`4π·area/(perimeter·perimeter)` if `perimeter > 0`, else `0`.  No cap is
applied by the source. -/
noncomputable def circularityOf (c : List (ℤ × ℤ)) : ℝ :=
  if 0 < arcLength c then
    4 * Real.pi * (contourArea c : ℝ) / (arcLength c * arcLength c)
  else 0

/-- `max(contours, key=cv2.contourArea)`: Python's `max` keeps the first
element among ties (a later element replaces the current best only on a
strictly larger key). -/
def largestContour (c : List (ℤ × ℤ)) (rest : List (List (ℤ × ℤ))) :
    List (ℤ × ℤ) :=
  rest.foldl (fun acc d => if contourArea acc < contourArea d then d else acc) c

/-- The `features` dictionary returned by `analyze_morphology`
(`circularity`, `aspect_ratio`, `area`, `contours_found`). -/
structure MorphFeatures where
  circularityVal : ℝ
  aspectRatioVal : ℚ
  areaVal : ℚ
  contoursFound : ℕ

/-- The classification chain of `analyze_morphology` (lines 150–158 of
`health_analyzer.py`): `circularity < 0.3` → Branching; `< 0.6` →
Plate/Table when `aspect_ratio > 1.5 or aspect_ratio < 0.67`, else Boulder;
otherwise Encrusting. -/
noncomputable def morphology_label (circ : ℝ) (ar : ℚ) : String :=
  if circ < 3 / 10 then "Branching"
  else if circ < 6 / 10 then
    (if 15 / 10 < ar ∨ ar < 67 / 100 then "Plate/Table" else "Boulder")
  else "Encrusting"

/-- `AdvancedCoralHealthAnalyzer.analyze_morphology` of `health_analyzer.py`.
Input `none` models an unreadable image; `some cs` models a readable image
whose `cv2.findContours` output is `cs`.  The empty features dictionary `{}`
of the sentinel returns is modelled by `none`. -/
noncomputable def analyze_morphology
    (contoursOpt : Option (List (List (ℤ × ℤ)))) : String × Option MorphFeatures :=
  match contoursOpt with
  | none => ("Unknown", none)
  | some [] => ("Unknown", none)
  | some (c :: rest) =>
      let largest := largestContour c rest
      let circ := circularityOf largest
      let ar := aspectRatioOf largest
      (morphology_label circ ar,
        some ⟨circ, ar, contourArea largest, (c :: rest).length⟩)

/-- Following the words of the spec (§4.3) and of claim C4 — **not** the
source — for comparison with the source's rule: the same chain but with the
aspect-ratio boundary written `0.667` instead of the source's `0.67`. -/
noncomputable def morphology_label_specWorded (circ : ℝ) (ar : ℚ) : String :=
  if circ < 3 / 10 then "Branching"
  else if circ < 6 / 10 then
    (if 15 / 10 < ar ∨ ar < 667 / 1000 then "Plate/Table" else "Boulder")
  else "Encrusting"

/-! ## Concrete inputs used by counterexamples and witnesses -/

/-- A rectilinear U-shaped closed contour: bounding box 101 × 151
(aspect ratio `101/151 ≈ 0.6689`, strictly between `0.667` and `0.67`),
area `13000`, perimeter `700`, circularity `26π/245 ≈ 0.333`. -/
def uContour : List (ℤ × ℤ) :=
  [(0, 0), (100, 0), (100, 150), (60, 150), (60, 50), (40, 50), (40, 150),
   (0, 150)]

/-- A thin 11 × 2 rectangle contour: area 10, perimeter 22, circularity
`10π/121 ≈ 0.26 < 0.3`. -/
def thinRect : List (ℤ × ℤ) := [(0, 0), (10, 0), (10, 1), (0, 1)]

/-- The unit square contour: area 1, perimeter 4, circularity `π/4`. -/
def unitSquare : List (ℤ × ℤ) := [(0, 0), (1, 0), (1, 1), (0, 1)]

/-- A uniform near-white pixel that is *not* grey: BGR `(220, 255, 220)`.
All three channels are at least 220, yet its OpenCV saturation is
`255·35/255 = 35 > 30`. -/
def palePixel : Pixel := ⟨220, 255, 220⟩

/-- A one-pixel uniform image of `palePixel`. -/
def paleImg : List Pixel := [palePixel]

/-- The k-means dominant colours of `paleImg` (uniform sample ⇒ all five
centres equal the single colour, in RGB order). -/
def paleColors : List RGB := List.replicate 5 ⟨220, 255, 220⟩

/-- The uniform brown test pixel of `health_analyzer.py`'s own `__main__`
block: RGB `(150, 100, 50)` stored BGR-ordered, i.e. BGR `(50, 100, 150)`. -/
def brownPixel : Pixel := ⟨50, 100, 150⟩

/-- A one-pixel uniform brown image. -/
def brownImg : List Pixel := [brownPixel]

/-- The k-means dominant colours of `brownImg`. -/
def brownColors : List RGB := List.replicate 5 ⟨150, 100, 50⟩

/-- A uniform pure-grey near-white pixel, BGR `(220, 220, 220)` (the
repository's own bleached test image `np.ones(...) * 220`). -/
def greyPixel : Pixel := ⟨220, 220, 220⟩

/-- A one-pixel uniform image of `greyPixel`. -/
def greyImg : List Pixel := [greyPixel]

/-- The k-means dominant colours of `greyImg`. -/
def greyColors : List RGB := List.replicate 5 ⟨220, 220, 220⟩

/-! ## Theorems -/

/-- **C1.**  The status chain of `detect_bleaching` is evaluated high to low
with strict comparisons, so each percentage gets exactly one
status/confidence pair: `> 40` Severely Bleached with `min(pct, 95)`;
`(20, 40]` Moderately Bleached with `75 + (pct − 20)`; `(10, 20]` Mild Stress
with `65 + (pct − 10)`; `(5, 10]` Watch with `60`; `≤ 5` Healthy with
`95 − pct`.  The boundary values 40, 20, 10, 5 fall into the lower bracket,
and on every readable image the returned status is the one this chain
assigns to the computed percentage. -/
theorem C1_threshold_chain (pct : ℚ) :
    (40 < pct → statusAndConfidence pct = ("🚨 SEVERELY BLEACHED", min pct 95)) ∧
    (20 < pct ∧ pct ≤ 40 →
      statusAndConfidence pct = ("⚠️ MODERATELY BLEACHED", 75 + (pct - 20))) ∧
    (10 < pct ∧ pct ≤ 20 →
      statusAndConfidence pct = ("😟 MILD STRESS", 65 + (pct - 10))) ∧
    (5 < pct ∧ pct ≤ 10 → statusAndConfidence pct = ("👀 WATCH", 60)) ∧
    (pct ≤ 5 → statusAndConfidence pct = ("✅ HEALTHY", 95 - pct)) ∧
    (∀ img colors, (detect_bleaching (some img) colors).2.1 =
      (statusAndConfidence (bleaching_score img colors * 100)).1) := by
  refine ⟨?_, ?_, ?_, ?_, ?_, ?_⟩
  · intro h
    simp only [statusAndConfidence, if_pos h]
  · rintro ⟨h1, h2⟩
    simp only [statusAndConfidence, if_neg (by linarith : ¬ (40:ℚ) < pct), if_pos h1]
  · rintro ⟨h1, h2⟩
    simp only [statusAndConfidence, if_neg (by linarith : ¬ (40:ℚ) < pct),
      if_neg (by linarith : ¬ (20:ℚ) < pct), if_pos h1]
  · rintro ⟨h1, h2⟩
    simp only [statusAndConfidence, if_neg (by linarith : ¬ (40:ℚ) < pct),
      if_neg (by linarith : ¬ (20:ℚ) < pct),
      if_neg (by linarith : ¬ (10:ℚ) < pct), if_pos h1]
  · intro h
    simp only [statusAndConfidence, if_neg (by linarith : ¬ (40:ℚ) < pct),
      if_neg (by linarith : ¬ (20:ℚ) < pct),
      if_neg (by linarith : ¬ (10:ℚ) < pct),
      if_neg (by linarith : ¬ (5:ℚ) < pct)]
  · intro img colors
    rfl

/-- Witness for C1: the boundary value 40 falls into the *lower*
(Moderately Bleached) bracket, with confidence `75 + (40 − 20) = 95`. -/
theorem C1_threshold_chain_witness :
    ((20:ℚ) < 40 ∧ (40:ℚ) ≤ 40) ∧
      statusAndConfidence 40 = ("⚠️ MODERATELY BLEACHED", 95) := by
  refine ⟨by norm_num, ?_⟩
  have h := (C1_threshold_chain 40).2.1 ⟨by norm_num, by norm_num⟩
  rw [h]
  norm_num

/-- **C2.**  On every readable image the returned bleaching percentage is
exactly `bleaching_score * 100`, and the score combines the three signals as
`0.6·whiteRatio + 0.2·(1 − colorDiversity) + 0.2·(1 − healthyColorRatio)`. -/
theorem C2_score_formula (img : List Pixel) (colors : List RGB) :
    (detect_bleaching (some img) colors).1 = bleaching_score img colors * 100 ∧
    bleaching_score img colors =
      0.6 * white_percentage img + 0.2 * (1 - color_diversity colors) +
        0.2 * (1 - healthyColorRatioOf colors) := by
  constructor
  · rfl
  · unfold bleaching_score
    ring

/-- **C5.**  On an unreadable image (`cv2.imread` returns `None`),
`detect_bleaching` returns the sentinel `(0, "Unknown", 0)` and
`analyze_morphology` returns `("Unknown", {})`; when the image is readable
but no contour is found, `analyze_morphology` also returns `("Unknown", {})`.
All three are ordinary returns of total functions — no exception
propagates. -/
theorem C5_sentinels (colors : List RGB) :
    detect_bleaching none colors = (0, "Unknown", 0) ∧
    analyze_morphology none = ("Unknown", none) ∧
    analyze_morphology (some []) = ("Unknown", none) := by
  refine ⟨rfl, rfl, rfl⟩

lemma satOfHsv_bounds (r g b : ℚ) (hr : 0 ≤ r) (hg : 0 ≤ g) (hb : 0 ≤ b) :
    0 ≤ (rgb_to_hsv r g b).2.1 ∧ (rgb_to_hsv r g b).2.1 ≤ 1 := by
  have hminmax : min r (min g b) ≤ max r (max g b) :=
    le_trans (min_le_left _ _) (le_max_left _ _)
  have hmin0 : 0 ≤ min r (min g b) := le_min hr (le_min hg hb)
  unfold rgb_to_hsv
  by_cases h : min r (min g b) = max r (max g b)
  · simp [h]
  · have hlt : min r (min g b) < max r (max g b) := lt_of_le_of_ne hminmax h
    have hpos : 0 < max r (max g b) := lt_of_le_of_lt hmin0 hlt
    simp only [if_neg h]
    constructor
    · exact div_nonneg (by linarith) hpos.le
    · exact div_le_one_of_le₀ (by linarith) hpos.le

lemma colorSat_bounds (c : RGB) (hr : 0 ≤ c.r) (hg : 0 ≤ c.g) (hb : 0 ≤ c.b) :
    0 ≤ colorSat c ∧ colorSat c ≤ 1 := by
  unfold colorSat
  exact satOfHsv_bounds _ _ _ (by positivity) (by positivity) (by positivity)

lemma white_percentage_bounds (img : List Pixel) :
    0 ≤ white_percentage img ∧ white_percentage img ≤ 1 := by
  unfold white_percentage
  constructor
  · positivity
  · apply div_le_one_of_le₀
    · exact_mod_cast List.countP_le_length _
    · positivity

lemma color_diversity_bounds (colors : List RGB)
    (hnn : ∀ c ∈ colors, 0 ≤ c.r ∧ 0 ≤ c.g ∧ 0 ≤ c.b) :
    0 ≤ color_diversity colors ∧ color_diversity colors ≤ 1 := by
  unfold color_diversity
  have h01 : ∀ x ∈ colors.map colorSat, 0 ≤ x ∧ x ≤ 1 := by
    intro x hx
    obtain ⟨c, hc, rfl⟩ := List.mem_map.1 hx
    obtain ⟨h1, h2, h3⟩ := hnn c hc
    exact colorSat_bounds c h1 h2 h3
  have hsum0 : 0 ≤ (colors.map colorSat).sum :=
    List.sum_nonneg fun x hx => (h01 x hx).1
  have hsumle : (colors.map colorSat).sum ≤ (colors.length : ℚ) := by
    have := List.sum_le_card_nsmul (colors.map colorSat) 1 fun x hx => (h01 x hx).2
    simpa [List.length_map, nsmul_eq_mul] using this
  constructor
  · positivity
  · exact div_le_one_of_le₀ hsumle (by positivity)

lemma healthyColorRatioOf_bounds (colors : List RGB) :
    0 ≤ healthyColorRatioOf colors ∧ healthyColorRatioOf colors ≤ 1 := by
  unfold healthyColorRatioOf
  split
  · constructor
    · positivity
    · apply div_le_one_of_le₀
      · exact_mod_cast List.countP_le_length _
      · positivity
  · norm_num

lemma sample_mem (img : List Pixel) (q : RGB) (hq : q ∈ kmeansSample img) :
    ∃ x ∈ img, Pixel.toRGB x = q := by
  have : q ∈ img.map Pixel.toRGB := List.take_subset _ _ hq
  exact List.mem_map.1 this

/-- **C3.**  On every readable valid image (all channels in `[0,255]`) with
k-means centres as produced by the external clustering stage, the returned
bleaching percentage lies in `[0, 100]`, and the returned confidence lies in
`[30, 95]` — the confidence bounds hold by the final clamp
`max(30, min(95, confidence))` alone, independently of the per-status
confidence formula (the proof of the last two conjuncts uses no
hypothesis). -/
theorem C3_bounds (img : List Pixel) (colors : List RGB)
    (hv : ∀ p ∈ img, validPixel p)
    (hk : KMeansCenters (kmeansSample img) colors) :
    0 ≤ (detect_bleaching (some img) colors).1 ∧
    (detect_bleaching (some img) colors).1 ≤ 100 ∧
    30 ≤ (detect_bleaching (some img) colors).2.2 ∧
    (detect_bleaching (some img) colors).2.2 ≤ 95 := by
  have hnn : ∀ c ∈ colors, 0 ≤ c.r ∧ 0 ≤ c.g ∧ 0 ≤ c.b := by
    intro c hc
    obtain ⟨⟨⟨p1, hp1, h1⟩, _⟩, ⟨⟨p3, hp3, h3⟩, _⟩, ⟨⟨p5, hp5, h5⟩, _⟩⟩ := hk.2 c hc
    obtain ⟨x1, hx1, rfl⟩ := sample_mem img p1 hp1
    obtain ⟨x3, hx3, rfl⟩ := sample_mem img p3 hp3
    obtain ⟨x5, hx5, rfl⟩ := sample_mem img p5 hp5
    obtain ⟨_, _, _, _, hr1, _⟩ := hv x1 hx1
    obtain ⟨_, _, hg1, _, _, _⟩ := hv x3 hx3
    obtain ⟨hb1, _, _, _, _, _⟩ := hv x5 hx5
    exact ⟨le_trans hr1 h1, le_trans hg1 h3, le_trans hb1 h5⟩
  obtain ⟨hw0, hw1⟩ := white_percentage_bounds img
  obtain ⟨hc0, hc1⟩ := color_diversity_bounds colors hnn
  obtain ⟨hh0, hh1⟩ := healthyColorRatioOf_bounds colors
  have hs0 : 0 ≤ bleaching_score img colors := by unfold bleaching_score; linarith
  have hs1 : bleaching_score img colors ≤ 1 := by unfold bleaching_score; linarith
  show 0 ≤ bleaching_score img colors * 100 ∧ bleaching_score img colors * 100 ≤ 100 ∧
    30 ≤ max 30 (min 95 (statusAndConfidence (bleaching_score img colors * 100)).2) ∧
    max 30 (min 95 (statusAndConfidence (bleaching_score img colors * 100)).2) ≤ 95
  refine ⟨by linarith, by linarith, le_max_left _ _, ?_⟩
  exact max_le (by norm_num) (le_trans (min_le_left _ _) (by norm_num))

/-- Witness for C3 at the repository's own bleached test image (uniform
grey 220). -/
theorem C3_bounds_witness :
    (∀ p ∈ greyImg, validPixel p) ∧
    KMeansCenters (kmeansSample greyImg) greyColors ∧
    (0 ≤ (detect_bleaching (some greyImg) greyColors).1 ∧
      (detect_bleaching (some greyImg) greyColors).1 ≤ 100 ∧
      30 ≤ (detect_bleaching (some greyImg) greyColors).2.2 ∧
      (detect_bleaching (some greyImg) greyColors).2.2 ≤ 95) :=
  ⟨by decide, by decide, C3_bounds greyImg greyColors (by decide) (by decide)⟩

lemma sqrt_of_sq (n m : ℝ) (hm : 0 ≤ m) (h : n = m^2) : Real.sqrt n = m := by
  rw [h, Real.sqrt_sq hm]

lemma arcLength_uContour : arcLength uContour = 700 := by
  have e1 : Real.sqrt 10000 = 100 := sqrt_of_sq _ _ (by norm_num) (by norm_num)
  have e2 : Real.sqrt 22500 = 150 := sqrt_of_sq _ _ (by norm_num) (by norm_num)
  have e3 : Real.sqrt 1600 = 40 := sqrt_of_sq _ _ (by norm_num) (by norm_num)
  have e4 : Real.sqrt 400 = 20 := sqrt_of_sq _ _ (by norm_num) (by norm_num)
  norm_num [arcLength, cyclicPairs, uContour, List.zip, e1, e2, e3, e4]

lemma arcLength_thinRect : arcLength thinRect = 22 := by
  have e1 : Real.sqrt 100 = 10 := sqrt_of_sq _ _ (by norm_num) (by norm_num)
  norm_num [arcLength, cyclicPairs, thinRect, List.zip, e1]

lemma arcLength_unitSquare : arcLength unitSquare = 4 := by
  norm_num [arcLength, cyclicPairs, unitSquare, List.zip]

lemma contourArea_uContour : contourArea uContour = 13000 := by
  norm_num [contourArea, cyclicPairs, uContour, List.zip]

lemma contourArea_thinRect : contourArea thinRect = 10 := by
  norm_num [contourArea, cyclicPairs, thinRect, List.zip]

lemma contourArea_unitSquare : contourArea unitSquare = 1 := by
  norm_num [contourArea, cyclicPairs, unitSquare, List.zip]

lemma contourArea_nonneg (c : List (ℤ × ℤ)) : 0 ≤ contourArea c := by
  unfold contourArea; positivity

lemma circ_uContour : circularityOf uContour = 26 * Real.pi / 245 := by
  rw [circularityOf,
    if_pos (by rw [arcLength_uContour]; norm_num : (0:ℝ) < arcLength uContour),
    arcLength_uContour, contourArea_uContour]
  push_cast
  ring

lemma circ_thinRect : circularityOf thinRect = 10 * Real.pi / 121 := by
  rw [circularityOf,
    if_pos (by rw [arcLength_thinRect]; norm_num : (0:ℝ) < arcLength thinRect),
    arcLength_thinRect, contourArea_thinRect]
  push_cast
  ring

lemma aspect_uContour : aspectRatioOf uContour = 101 / 151 := by
  norm_num [aspectRatioOf, rectW, rectH, uContour]

/-- **C4, counterexample.**  The claim states the Plate/Table test as
`aspectRatio > 1.5 or aspectRatio < 0.667`, but the source
(`health_analyzer.py` line 153) uses `aspect_ratio < 0.67`.  At the contour
`uContour` (circularity `26π/245 ∈ [0.3, 0.6)`, aspect ratio
`101/151 ≈ 0.6689`, which lies strictly between `0.667` and `0.67`) the code
returns "Plate/Table" while the claim's rule demands "Boulder". -/
theorem C4_counterexample :
    (analyze_morphology (some [uContour])).1 = "Plate/Table" ∧
    morphology_label_specWorded (circularityOf uContour) (aspectRatioOf uContour) = "Boulder" ∧
    aspectRatioOf uContour = 101 / 151 ∧
    (667 / 1000 : ℚ) < 101 / 151 ∧ (101 / 151 : ℚ) < 67 / 100 ∧
    (3 / 10 : ℝ) ≤ circularityOf uContour ∧ circularityOf uContour < 6 / 10 := by
  have hlo : (3 / 10 : ℝ) ≤ 26 * Real.pi / 245 := by
    have := Real.pi_gt_d6
    linarith
  have hhi : (26 * Real.pi / 245 : ℝ) < 6 / 10 := by
    have := Real.pi_lt_d2
    linarith
  refine ⟨?_, ?_, aspect_uContour, by norm_num, by norm_num,
    by rw [circ_uContour]; exact hlo, by rw [circ_uContour]; exact hhi⟩
  · show morphology_label (circularityOf (largestContour uContour []))
      (aspectRatioOf (largestContour uContour [])) = _
    rw [show largestContour uContour [] = uContour from rfl, circ_uContour,
      aspect_uContour, morphology_label, if_neg (not_lt.2 hlo), if_pos hhi,
      if_pos (Or.inr (by norm_num))]
  · rw [morphology_label_specWorded, circ_uContour, aspect_uContour,
      if_neg (not_lt.2 hlo), if_pos hhi, if_neg (by push_neg; norm_num)]

/-- **C4, amended.**  The morphology label is determined from the largest
contour's features by: circularity `< 0.3` → "Branching"; `0.3 ≤ circularity
< 0.6` → "Plate/Table" when `aspectRatio > 1.5` or `aspectRatio < 0.67`
(the source's boundary, not the claim's `0.667`), otherwise "Boulder";
`circularity ≥ 0.6` → "Encrusting"; and on every readable image with a
contour the returned label is this rule applied to the largest contour. -/
theorem C4_amended (circ : ℝ) (ar : ℚ) :
    (circ < 3 / 10 → morphology_label circ ar = "Branching") ∧
    (3 / 10 ≤ circ → circ < 6 / 10 → (15 / 10 < ar ∨ ar < 67 / 100) →
      morphology_label circ ar = "Plate/Table") ∧
    (3 / 10 ≤ circ → circ < 6 / 10 → ¬(15 / 10 < ar ∨ ar < 67 / 100) →
      morphology_label circ ar = "Boulder") ∧
    (6 / 10 ≤ circ → morphology_label circ ar = "Encrusting") ∧
    (∀ c rest, (analyze_morphology (some (c :: rest))).1 =
      morphology_label (circularityOf (largestContour c rest))
        (aspectRatioOf (largestContour c rest))) := by
  refine ⟨?_, ?_, ?_, ?_, fun c rest => rfl⟩
  · intro h; rw [morphology_label, if_pos h]
  · intro h1 h2 h3
    rw [morphology_label, if_neg (not_lt.2 h1), if_pos h2, if_pos h3]
  · intro h1 h2 h3
    rw [morphology_label, if_neg (not_lt.2 h1), if_pos h2, if_neg h3]
  · intro h
    rw [morphology_label, if_neg (by linarith), if_neg (not_lt.2 h)]

/-- Witness for C4 (amended) at the thin-rectangle contour, whose
circularity `10π/121 ≈ 0.26` is below `0.3`. -/
theorem C4_amended_witness :
    circularityOf thinRect < 3 / 10 ∧
    morphology_label (circularityOf thinRect) (aspectRatioOf thinRect) = "Branching" := by
  have h : circularityOf thinRect < 3 / 10 := by
    rw [circ_thinRect]
    have := Real.pi_lt_d2
    linarith
  exact ⟨h, (C4_amended (circularityOf thinRect) (aspectRatioOf thinRect)).1 h⟩

/-- **C7.**  For every readable image with a contour found, the returned
features hold the largest contour's circularity, computed as
`4π·area/perimeter²` with value 0 when the perimeter is 0, and that value
lies in `[0, 1]`.  The source applies no cap: the upper bound holds because
every closed polygonal contour satisfies the isoperimetric inequality
`4π·area ≤ perimeter²`, taken here as the hypothesis `hiso` (it is true of
every possible `cv2.findContours` output, the area being the absolute
shoelace area and the perimeter the closed polygonal length). -/
theorem C7_circularity (c : List (ℤ × ℤ)) (rest : List (List (ℤ × ℤ)))
    (hiso : 4 * Real.pi * ((contourArea (largestContour c rest) : ℚ) : ℝ) ≤
      arcLength (largestContour c rest) ^ 2) :
    (analyze_morphology (some (c :: rest))).2 =
      some ⟨circularityOf (largestContour c rest),
            aspectRatioOf (largestContour c rest),
            contourArea (largestContour c rest), (c :: rest).length⟩ ∧
    (0 < arcLength (largestContour c rest) →
      circularityOf (largestContour c rest) =
        4 * Real.pi * ((contourArea (largestContour c rest) : ℚ) : ℝ) /
          (arcLength (largestContour c rest) * arcLength (largestContour c rest))) ∧
    (¬ 0 < arcLength (largestContour c rest) →
      circularityOf (largestContour c rest) = 0) ∧
    0 ≤ circularityOf (largestContour c rest) ∧
    circularityOf (largestContour c rest) ≤ 1 := by
  have hA : (0:ℝ) ≤ ((contourArea (largestContour c rest) : ℚ) : ℝ) := by
    exact_mod_cast contourArea_nonneg _
  refine ⟨rfl, ?_, ?_, ?_, ?_⟩
  · intro h; rw [circularityOf, if_pos h]
  · intro h; rw [circularityOf, if_neg h]
  · rw [circularityOf]; split
    · next h =>
      exact div_nonneg (mul_nonneg (mul_nonneg (by norm_num) Real.pi_pos.le) hA)
        (mul_pos h h).le
    · exact le_refl 0
  · rw [circularityOf]; split
    · next h =>
      rw [div_le_one (mul_pos h h)]
      calc 4 * Real.pi * ((contourArea (largestContour c rest) : ℚ) : ℝ)
          ≤ arcLength (largestContour c rest) ^ 2 := hiso
        _ = arcLength (largestContour c rest) * arcLength (largestContour c rest) :=
            pow_two _
    · norm_num

/-- Witness for C7 at the unit-square contour: `4π·1 ≤ 4² = 16`, and its
circularity `π/4` lies in `[0, 1]`. -/
theorem C7_circularity_witness :
    (4 * Real.pi * ((contourArea (largestContour unitSquare []) : ℚ) : ℝ) ≤
      arcLength (largestContour unitSquare []) ^ 2) ∧
    0 ≤ circularityOf (largestContour unitSquare []) ∧
    circularityOf (largestContour unitSquare []) ≤ 1 := by
  have hL : largestContour unitSquare [] = unitSquare := rfl
  have hiso : 4 * Real.pi * ((contourArea (largestContour unitSquare []) : ℚ) : ℝ) ≤
      arcLength (largestContour unitSquare []) ^ 2 := by
    rw [hL, arcLength_unitSquare, contourArea_unitSquare]
    have := Real.pi_lt_d2
    push_cast
    nlinarith
  exact ⟨hiso, (C7_circularity unitSquare [] hiso).2.2.2.1,
    (C7_circularity unitSquare [] hiso).2.2.2.2⟩

lemma find_branching :
    corals.find? (fun c => c.morphology == "Branching") = some staghorn := rfl

lemma find_boulder :
    corals.find? (fun c => c.morphology == "Boulder") = some greatStar := rfl

lemma find_plate :
    corals.find? (fun c => c.morphology == "Plate/Table") = some tableCoral := rfl

lemma corals_head : corals.head? = some staghorn := rfl

lemma identify_coral_eval (s : String) :
    identify_coral s =
      (if strContains (strLower s) "branch" then (some staghorn, (171:ℚ)/2)
       else if strContains (strLower s) "boulder" ||
               strContains (strLower s) "massive" then (some greatStar, 171/2)
       else if strContains (strLower s) "plate" ||
               strContains (strLower s) "table" then (some tableCoral, 171/2)
       else (some staghorn, 171/2)) := by
  unfold identify_coral
  cases h1 : strContains (strLower s) "branch" <;>
    cases h2 : (strContains (strLower s) "boulder" ||
      strContains (strLower s) "massive") <;>
      cases h3 : (strContains (strLower s) "plate" ||
        strContains (strLower s) "table") <;>
        simp [h1, h2, h3, find_branching, find_boulder, find_plate, corals_head]

/-- **C6.**  `identify_coral` matches by case-insensitive keyword
containment in fixed priority order: a descriptor containing "branch"
returns the first Branching-tagged record (Staghorn Coral); otherwise
"boulder" or "massive" returns the first Boulder-tagged record (Great Star
Coral); otherwise "plate" or "table" returns the first Plate/Table-tagged
record (Table Coral); otherwise the first record in table order (Staghorn
Coral).  Whenever a record is returned the confidence is exactly 85.5.  The
function is pure, so repeated calls on the same input return the same
record. -/
theorem C6_priority (s : String) :
    (strContains (strLower s) "branch" = true →
      identify_coral s = (some staghorn, 85.5)) ∧
    (strContains (strLower s) "branch" = false →
      (strContains (strLower s) "boulder" = true ∨
        strContains (strLower s) "massive" = true) →
      identify_coral s = (some greatStar, 85.5)) ∧
    (strContains (strLower s) "branch" = false →
      strContains (strLower s) "boulder" = false →
      strContains (strLower s) "massive" = false →
      (strContains (strLower s) "plate" = true ∨
        strContains (strLower s) "table" = true) →
      identify_coral s = (some tableCoral, 85.5)) ∧
    (strContains (strLower s) "branch" = false →
      strContains (strLower s) "boulder" = false →
      strContains (strLower s) "massive" = false →
      strContains (strLower s) "plate" = false →
      strContains (strLower s) "table" = false →
      identify_coral s = (some staghorn, 85.5)) ∧
    (∀ r conf, identify_coral s = (some r, conf) → conf = 85.5) := by
  have h855 : (85.5 : ℚ) = 171 / 2 := by norm_num
  rw [identify_coral_eval s, h855]
  refine ⟨?_, ?_, ?_, ?_, ?_⟩
  · intro h1
    simp [h1]
  · intro h1 h2
    have h2' : (strContains (strLower s) "boulder" ||
        strContains (strLower s) "massive") = true := by
      rcases h2 with h | h <;> simp [h]
    simp [h1, h2']
  · intro h1 hb hm h4
    have h4' : (strContains (strLower s) "plate" ||
        strContains (strLower s) "table") = true := by
      rcases h4 with h | h <;> simp [h]
    simp [h1, hb, hm, h4']
  · intro h1 hb hm hp ht
    simp [h1, hb, hm, hp, ht]
  · intro r conf h
    split_ifs at h <;>
      simpa using (congrArg Prod.snd h).symm

/-- Witness for C6: a concrete descriptor containing "branch" resolves to
the Staghorn Coral record with confidence 85.5. -/
theorem C6_priority_witness :
    strContains (strLower "Branching coral, antler-like") "branch" = true ∧
    identify_coral "Branching coral, antler-like" = (some staghorn, 85.5) := by
  have h : strContains (strLower "Branching coral, antler-like") "branch" = true := by decide
  exact ⟨h, (C6_priority "Branching coral, antler-like").1 h⟩

/-- **C10.**  With the populated nine-row table, `identify_coral` never
returns the null/zero-confidence result: for every input string some record
is returned with confidence exactly 85.5 (the `(None, 0)` branch is
unreachable), and keyword-free inputs such as "encrusting coral" and
"unknown coral" fall back to the first record in table order. -/
theorem C10_fallback_total :
    (∀ s : String, (identify_coral s).1.isSome = true ∧ (identify_coral s).2 = 85.5) ∧
    identify_coral "encrusting coral" = (some staghorn, 85.5) ∧
    identify_coral "unknown coral" = (some staghorn, 85.5) := by
  have h855 : (85.5 : ℚ) = 171 / 2 := by norm_num
  refine ⟨fun s => ?_, ?_, ?_⟩
  · rw [identify_coral_eval s]
    split_ifs <;> exact ⟨rfl, by norm_num⟩
  · rw [show identify_coral "encrusting coral" = (some staghorn, 171/2) from rfl, h855]
  · rw [show identify_coral "unknown coral" = (some staghorn, 171/2) from rfl, h855]

lemma sample_all (img : List Pixel) (p : Pixel) (huni : ∀ q ∈ img, q = p) :
    ∀ q ∈ kmeansSample img, q = Pixel.toRGB p := by
  intro q hq
  obtain ⟨x, hx, rfl⟩ := sample_mem img q hq
  rw [huni x hx]

lemma kmeans_uniform (img : List Pixel) (p : Pixel) (colors : List RGB)
    (huni : ∀ q ∈ img, q = p)
    (hk : KMeansCenters (kmeansSample img) colors) :
    colors = List.replicate 5 (Pixel.toRGB p) := by
  obtain ⟨hlen, hbox⟩ := hk
  have hall : ∀ c ∈ colors, c = Pixel.toRGB p := by
    intro c hc
    obtain ⟨⟨⟨p1, hp1, h1⟩, ⟨p2, hp2, h2⟩⟩, ⟨⟨p3, hp3, h3⟩, ⟨p4, hp4, h4⟩⟩,
      ⟨⟨p5, hp5, h5⟩, ⟨p6, hp6, h6⟩⟩⟩ := hbox c hc
    have e := sample_all img p huni
    rw [e p1 hp1] at h1
    rw [e p2 hp2] at h2
    rw [e p3 hp3] at h3
    rw [e p4 hp4] at h4
    rw [e p5 hp5] at h5
    rw [e p6 hp6] at h6
    cases c
    cases p
    simp only [Pixel.toRGB] at h1 h2 h3 h4 h5 h6 ⊢
    simp only [RGB.mk.injEq]
    exact ⟨le_antisymm h2 h1, le_antisymm h4 h3, le_antisymm h6 h5⟩
  have h := List.eq_replicate_length.mpr hall
  rw [hlen] at h
  exact h

lemma color_diversity_replicate (c : RGB) :
    color_diversity (List.replicate 5 c) = colorSat c := by
  simp only [color_diversity, List.map_replicate, List.sum_replicate,
    List.length_replicate, nsmul_eq_mul]
  push_cast
  ring

lemma healthy_ratio_replicate_true (c : RGB) (h : isHealthyColor c = true) :
    healthyColorRatioOf (List.replicate 5 c) = 1 := by
  have hc : (List.replicate 5 c).countP isHealthyColor = 5 := by
    calc (List.replicate 5 c).countP isHealthyColor
        = (List.replicate 5 c).length :=
          List.countP_eq_length.mpr (fun a ha => by
            rw [List.eq_of_mem_replicate ha]; exact h)
      _ = 5 := by simp
  norm_num [healthyColorRatioOf, hc]

lemma white_percentage_all_not (img : List Pixel) (p : Pixel)
    (huni : ∀ q ∈ img, q = p) (h : isWhitePixel p = false) :
    white_percentage img = 0 := by
  have hc : img.countP isWhitePixel = 0 := by
    rw [List.countP_eq_zero]
    intro a ha
    rw [huni a ha, h]
    exact Bool.false_ne_true
  simp [white_percentage, hc]

lemma white_percentage_all (img : List Pixel) (hne : img ≠ [])
    (hall : ∀ q ∈ img, isWhitePixel q = true) :
    white_percentage img = 1 := by
  have hc : img.countP isWhitePixel = img.length := List.countP_eq_length.mpr hall
  have hl : (img.length : ℚ) ≠ 0 := by
    simpa using fun hz => hne (List.length_eq_zero.mp hz)
  rw [white_percentage, hc, div_self hl]

lemma isWhitePixel_of (p : Pixel) (hv : validPixel p)
    (h220 : 220 ≤ p.b ∧ 220 ≤ p.g ∧ 220 ≤ p.r) (hsat : hsvSatOf p ≤ 30) :
    isWhitePixel p = true := by
  obtain ⟨hb0, hb1, hg0, hg1, hr0, hr1⟩ := hv
  have hV : (180 : ℤ) ≤ hsvValOf p :=
    le_trans (by norm_num) (le_trans h220.1 (le_max_left _ _))
  have hV255 : hsvValOf p ≤ 255 := max_le hb1 (max_le hg1 hr1)
  have hVpos : (0 : ℤ) < hsvValOf p := by
    have := le_trans h220.1 (le_max_left p.b (max p.g p.r))
    unfold hsvValOf
    omega
  have hminle : hsvMinOf p ≤ hsvValOf p := by
    unfold hsvMinOf hsvValOf
    exact le_trans (min_le_left _ _) (le_max_left _ _)
  have hS0 : 0 ≤ hsvSatOf p := by
    rw [hsvSatOf, if_neg (by omega)]
    have h1 : (0:ℚ) ≤ (hsvValOf p : ℚ) - (hsvMinOf p : ℚ) := by
      rw [sub_nonneg]; exact_mod_cast hminle
    have h2 : (0:ℚ) < (hsvValOf p : ℚ) := by exact_mod_cast hVpos
    positivity
  simp only [isWhitePixel, Bool.and_eq_true, decide_eq_true_eq]
  exact ⟨⟨⟨hS0, hsat⟩, hV⟩, hV255⟩

/-- **C8, counterexample.**  "All three channels ≥ 220 at every pixel,
uniform color" does not force a white-pixel ratio near 1: the uniform image
of BGR `(220, 255, 220)` has every channel ≥ 220, yet its OpenCV saturation
is `35 > 30`, so the white mask matches no pixel (`white_percentage = 0`),
the percentage is `1900/51 ≈ 37.3 < 40`, and the status is
"⚠️ MODERATELY BLEACHED", not Severely Bleached. -/
theorem C8_counterexample :
    (∀ q ∈ paleImg, q = palePixel) ∧ (∀ p ∈ paleImg, validPixel p) ∧
    (220 ≤ palePixel.b ∧ 220 ≤ palePixel.g ∧ 220 ≤ palePixel.r) ∧
    KMeansCenters (kmeansSample paleImg) paleColors ∧
    white_percentage paleImg = 0 ∧
    detect_bleaching (some paleImg) paleColors =
      (1900 / 51, "⚠️ MODERATELY BLEACHED", 4705 / 51) ∧
    (1900 / 51 : ℚ) < 40 := by
  have hwf : isWhitePixel palePixel = false := by
    norm_num [isWhitePixel, hsvSatOf, hsvValOf, hsvMinOf, palePixel]
  have hwp : white_percentage paleImg = 0 :=
    white_percentage_all_not paleImg palePixel (by decide) hwf
  have hcd : color_diversity paleColors = 7 / 51 := by
    have hs : colorSat ⟨220, 255, 220⟩ = 7 / 51 := by
      norm_num [colorSat, rgb_to_hsv]
    rw [show paleColors = List.replicate 5 ⟨220, 255, 220⟩ from rfl,
      color_diversity_replicate, hs]
  have hhr : healthyColorRatioOf paleColors = 0 := by
    have h : isHealthyColor ⟨220, 255, 220⟩ = false := by
      norm_num [isHealthyColor, rgb_to_hsv, Int.fract]
    simp [healthyColorRatioOf, paleColors, h]
  have hscore : bleaching_score paleImg paleColors = 19 / 51 := by
    rw [bleaching_score, hwp, hcd, hhr]; norm_num
  refine ⟨by decide, by decide, by decide, by decide, hwp, ?_, by norm_num⟩
  show (bleaching_score paleImg paleColors * 100,
    (statusAndConfidence (bleaching_score paleImg paleColors * 100)).1,
    max 30 (min 95 (statusAndConfidence (bleaching_score paleImg paleColors * 100)).2)) = _
  rw [hscore]
  norm_num [statusAndConfidence]

/-- **C8, amended.**  For a uniform near-white image whose pixel has all
channels ≥ 220 *and* OpenCV saturation at most 30 (the white-mask test, e.g.
any grey pixel), the white-pixel ratio is exactly 1, the bleaching
percentage exceeds 40, and the status is Severely Bleached. -/
theorem C8_amended (img : List Pixel) (p : Pixel) (colors : List RGB)
    (hne : img ≠ []) (huni : ∀ q ∈ img, q = p) (hv : validPixel p)
    (h220 : 220 ≤ p.b ∧ 220 ≤ p.g ∧ 220 ≤ p.r)
    (hsat : hsvSatOf p ≤ 30)
    (hk : KMeansCenters (kmeansSample img) colors) :
    white_percentage img = 1 ∧
    40 < (detect_bleaching (some img) colors).1 ∧
    (detect_bleaching (some img) colors).2.1 = "🚨 SEVERELY BLEACHED" := by
  have hwp : white_percentage img = 1 :=
    white_percentage_all img hne
      (fun q hq => by rw [huni q hq]; exact isWhitePixel_of p hv h220 hsat)
  have hcolrep : colors = List.replicate 5 (Pixel.toRGB p) :=
    kmeans_uniform img p colors huni hk
  have hcd : color_diversity colors = colorSat (Pixel.toRGB p) := by
    rw [hcolrep, color_diversity_replicate]
  obtain ⟨hb0, hb1, hg0, hg1, hr0, hr1⟩ := hv
  have hcd01 : 0 ≤ colorSat (Pixel.toRGB p) ∧ colorSat (Pixel.toRGB p) ≤ 1 :=
    colorSat_bounds (Pixel.toRGB p) hr0 hg0 hb0
  obtain ⟨hh0, hh1⟩ := healthyColorRatioOf_bounds colors
  have hpct : 40 < bleaching_score img colors * 100 := by
    rw [bleaching_score, hwp, hcd]
    nlinarith [hcd01.1, hcd01.2, hh0, hh1]
  refine ⟨hwp, hpct, ?_⟩
  show (statusAndConfidence (bleaching_score img colors * 100)).1 = _
  rw [statusAndConfidence, if_pos hpct]

/-- Witness for C8 (amended) at the repository's own bleached test image,
uniform grey 220. -/
theorem C8_amended_witness :
    hsvSatOf greyPixel ≤ 30 ∧
    (220 ≤ greyPixel.b ∧ 220 ≤ greyPixel.g ∧ 220 ≤ greyPixel.r) ∧
    white_percentage greyImg = 1 ∧
    40 < (detect_bleaching (some greyImg) greyColors).1 ∧
    (detect_bleaching (some greyImg) greyColors).2.1 = "🚨 SEVERELY BLEACHED" := by
  have hs : hsvSatOf greyPixel ≤ 30 := by
    norm_num [hsvSatOf, hsvValOf, hsvMinOf, greyPixel]
  have h := C8_amended greyImg greyPixel greyColors (by decide) (by decide)
    (by decide) (by decide) hs (by decide)
  exact ⟨hs, by decide, h.1, h.2.1, h.2.2⟩

/-- **C9, counterexample.**  On the uniform brown image RGB `(150,100,50)`
(BGR-ordered `(50,100,150)`) — the repository's own "healthy coral" test
image — `detect_bleaching` computes percentage `20/3 ≈ 6.67`, which exceeds
5, so the bottom (Healthy) bracket does *not* apply: the status is
"👀 WATCH", not "✅ HEALTHY". -/
theorem C9_counterexample :
    (∀ q ∈ brownImg, q = brownPixel) ∧
    Pixel.toRGB brownPixel = ⟨150, 100, 50⟩ ∧
    KMeansCenters (kmeansSample brownImg) brownColors ∧
    detect_bleaching (some brownImg) brownColors = (20 / 3, "👀 WATCH", 60) ∧
    (5 : ℚ) < 20 / 3 ∧
    (detect_bleaching (some brownImg) brownColors).2.1 ≠ "✅ HEALTHY" := by
  have hwf : isWhitePixel brownPixel = false := by
    norm_num [isWhitePixel, hsvSatOf, hsvValOf, hsvMinOf, brownPixel]
  have hwp : white_percentage brownImg = 0 :=
    white_percentage_all_not brownImg brownPixel (by decide) hwf
  have hs : colorSat ⟨150, 100, 50⟩ = 2 / 3 := by
    norm_num [colorSat, rgb_to_hsv]
  have hh : isHealthyColor ⟨150, 100, 50⟩ = true := by
    norm_num [isHealthyColor, rgb_to_hsv, Int.fract]
  have hcd : color_diversity brownColors = 2 / 3 := by
    rw [show brownColors = List.replicate 5 ⟨150, 100, 50⟩ from rfl,
      color_diversity_replicate, hs]
  have hhr : healthyColorRatioOf brownColors = 1 := by
    rw [show brownColors = List.replicate 5 ⟨150, 100, 50⟩ from rfl]
    exact healthy_ratio_replicate_true _ hh
  have hscore : bleaching_score brownImg brownColors = 1 / 15 := by
    rw [bleaching_score, hwp, hcd, hhr]; norm_num
  have hmain : detect_bleaching (some brownImg) brownColors =
      (20 / 3, "👀 WATCH", 60) := by
    show (bleaching_score brownImg brownColors * 100,
      (statusAndConfidence (bleaching_score brownImg brownColors * 100)).1,
      max 30 (min 95 (statusAndConfidence (bleaching_score brownImg brownColors * 100)).2)) = _
    rw [hscore]
    norm_num [statusAndConfidence]
  refine ⟨by decide, rfl, by decide, hmain, by norm_num, ?_⟩
  rw [hmain]
  decide

/-- **C9, amended.**  For every uniform brown image of RGB `(150,100,50)`
pixels the bleaching percentage is low (`20/3 ≈ 6.67`, in `(5, 10]`), but
because it exceeds 5 the returned status is "👀 WATCH" with confidence 60 —
one bracket above Healthy. -/
theorem C9_amended (img : List Pixel) (colors : List RGB)
    (hne : img ≠ []) (huni : ∀ q ∈ img, q = brownPixel)
    (hk : KMeansCenters (kmeansSample img) colors) :
    detect_bleaching (some img) colors = (20 / 3, "👀 WATCH", 60) ∧
    (5 : ℚ) < 20 / 3 ∧ (20 / 3 : ℚ) ≤ 10 := by
  have hwf : isWhitePixel brownPixel = false := by
    norm_num [isWhitePixel, hsvSatOf, hsvValOf, hsvMinOf, brownPixel]
  have hwp : white_percentage img = 0 :=
    white_percentage_all_not img brownPixel huni hwf
  have hcolrep : colors = List.replicate 5 ⟨150, 100, 50⟩ := by
    have := kmeans_uniform img brownPixel colors huni hk
    rwa [show Pixel.toRGB brownPixel = ⟨150, 100, 50⟩ from rfl] at this
  have hs : colorSat ⟨150, 100, 50⟩ = 2 / 3 := by
    norm_num [colorSat, rgb_to_hsv]
  have hh : isHealthyColor ⟨150, 100, 50⟩ = true := by
    norm_num [isHealthyColor, rgb_to_hsv, Int.fract]
  have hcd : color_diversity colors = 2 / 3 := by
    rw [hcolrep, color_diversity_replicate, hs]
  have hhr : healthyColorRatioOf colors = 1 := by
    rw [hcolrep]
    exact healthy_ratio_replicate_true _ hh
  have hscore : bleaching_score img colors = 1 / 15 := by
    rw [bleaching_score, hwp, hcd, hhr]; norm_num
  refine ⟨?_, by norm_num, by norm_num⟩
  show (bleaching_score img colors * 100,
    (statusAndConfidence (bleaching_score img colors * 100)).1,
    max 30 (min 95 (statusAndConfidence (bleaching_score img colors * 100)).2)) = _
  rw [hscore]
  norm_num [statusAndConfidence]

/-- Witness for C9 (amended) at the concrete one-pixel uniform brown
image. -/
theorem C9_amended_witness :
    brownImg ≠ [] ∧ (∀ q ∈ brownImg, q = brownPixel) ∧
    detect_bleaching (some brownImg) brownColors = (20 / 3, "👀 WATCH", 60) :=
  ⟨by decide, by decide,
    (C9_amended brownImg brownColors (by decide) (by decide) (by decide)).1⟩
